import Mathlib

/-!
Formal model of the server lifecycle and control core of the
minecraft-server-manager repository.

Each definition below is a shallow embedding of one JavaScript function of
the repository, translated field by field from the source:

* `LogsModel`     — `app/core/docker/logs.js`, class `LogsManager`
* `StatsModel`    — `app/core/docker/logs.js` (third segment), class `StatsManager`
* `RconModel`     — `app/core/rcon/client.js`, class `RconClient`
* `CommandsModel` — `app/core/rcon/commands.js`, class `RconCommands`
* `BackupModel`   — `app/core/errors/result.js` (segments two and three),
                    classes `BackupManager` and `BackupHelper`
* `ReadyModel`    — the `ReadinessChecker` class

JavaScript numbers that hold byte counts, millisecond times and list lengths
are modelled as `Nat` (all values involved are small nonnegative integers,
exactly representable); the CPU percentage computation, which divides, is
modelled over `Rat`.  Asynchronous code is modelled by making every `await`
suspension point an explicit state, so that interleavings of the timer
callbacks with the queue processor are visible as sequences of state
transitions.
-/

namespace LogsModel

/-- Shape of one parsed log entry, from `LogsManager._parseLine`
(`logs.js` lines 199-219): raw line, timestamp, severity level, optional
thread label, message. Timestamps are epoch milliseconds. -/
structure LogEntry where
  raw : String
  timestamp : Nat
  level : String
  thread : Option String
  message : String
  deriving DecidableEq, Repr

/-- Embedding of `LogsManager._addToBuffer` (`logs.js` lines 129-134):
push the entry, then if the buffer length exceeds `maxBufferSize` shift
off the oldest entry. -/
def addToBuffer {α : Type} (maxBufferSize : Nat) (buffer : List α) (entry : α) : List α :=
  let b := buffer ++ [entry]
  if maxBufferSize < b.length then b.tail else b

/-- Feeding a sequence of log lines through `_addToBuffer`, as the
`stream.on data` handler does for each complete line (`logs.js` line 87). -/
def feed {α : Type} (maxBufferSize : Nat) (buffer : List α) (entries : List α) : List α :=
  entries.foldl (addToBuffer maxBufferSize) buffer

/-- A concrete log entry used for closed instances. -/
def mkEntry (n : Nat) : LogEntry :=
  { raw := "", timestamp := n, level := "INFO", thread := none, message := "" }

end LogsModel

namespace StatsModel

/-- Raw counters of one side of a docker stats sample (`cpu_stats` or
`precpu_stats`).  Absent JSON fields read as `0` through the `|| 0`
defaulting in `_calculateCpu` (`logs.js` lines 579-589), so `0` stands for
a missing field exactly as in the source. -/
structure RawCpuStats where
  total_usage : Nat
  system_cpu_usage : Nat
  online_cpus : Nat
  percpu_count : Nat
  deriving DecidableEq, Repr

/-- A raw docker stats sample as consumed by `StatsManager._calculateCpu`:
the current counters and the `precpu_stats` counters supplied by the
docker daemon inside the same sample. -/
structure RawStats where
  cpu_stats : RawCpuStats
  precpu_stats : RawCpuStats
  deriving DecidableEq, Repr

/-- Result object of `_calculateCpu` (`logs.js` lines 598-603). -/
structure CpuResult where
  percent : Rat
  cores : Nat
  totalPercent : Rat
  deriving DecidableEq, Repr

/-- JavaScript `Math.round`: round half toward positive infinity. -/
def jsRound (x : Rat) : Int := ⌊x + 1/2⌋

/-- The `Math.round(v * 10) / 10` rounding applied to both percentage
fields in `_calculateCpu`. -/
def round1 (x : Rat) : Rat := (jsRound (x * 10) : Rat) / 10

/-- CPU usage delta of a sample: `cpu_usage.total_usage` minus the
precpu value (`logs.js` lines 579-580). JavaScript subtraction can go
negative, hence `Int`. -/
def cpuDelta (s : RawStats) : Int :=
  (s.cpu_stats.total_usage : Int) - (s.precpu_stats.total_usage : Int)

/-- System CPU usage delta (`logs.js` lines 583-584). -/
def systemDelta (s : RawStats) : Int :=
  (s.cpu_stats.system_cpu_usage : Int) - (s.precpu_stats.system_cpu_usage : Int)

/-- Embedding of `StatsManager._calculateCpu` (`logs.js` lines 574-604):
`cpuCount` falls back from `online_cpus` through the `percpu_usage`
length to `1` using JavaScript `||`; the unrounded percentage is
`cpuDelta / systemDelta * 100` when both deltas are positive and `0`
otherwise; `percent` is that value rounded to one decimal and
`totalPercent` is the value times `cpuCount`, rounded to one decimal. -/
def calculateCpu (s : RawStats) : CpuResult :=
  let cpuCount :=
    if s.cpu_stats.online_cpus ≠ 0 then s.cpu_stats.online_cpus
    else if s.cpu_stats.percpu_count ≠ 0 then s.cpu_stats.percpu_count
    else 1
  let cpuPercent : Rat :=
    if 0 < systemDelta s ∧ 0 < cpuDelta s then
      (cpuDelta s : Rat) / (systemDelta s : Rat) * 100
    else 0
  { percent := round1 cpuPercent
    cores := cpuCount
    totalPercent := round1 (cpuPercent * cpuCount) }

/-- The raw sample of the worked spec example: current totals 200 and
1000 against a zero baseline, 4 online CPUs. -/
def exampleSample : RawStats :=
  { cpu_stats := { total_usage := 200, system_cpu_usage := 1000,
                   online_cpus := 4, percpu_count := 0 }
    precpu_stats := { total_usage := 0, system_cpu_usage := 0,
                      online_cpus := 0, percpu_count := 0 } }

/-- Polling flag and tick interval of `StatsManager` (`logs.js` lines
491-493): `polling` starts false, `tickMs` starts at 2000. -/
structure PollState where
  polling : Bool
  tickMs : Nat
  deriving DecidableEq, Repr

/-- Embedding of `StatsManager.startPolling` (`logs.js` lines 504-526):
an early return leaves the state untouched when already polling;
otherwise the tick interval is set and polling begins. -/
def startPolling (s : PollState) (intervalMs : Nat) : PollState :=
  if s.polling then s else { polling := true, tickMs := intervalMs }

/-- Embedding of `StatsManager.stopPolling` (`logs.js` lines 531-537):
clears the flag and the timer; the configured `tickMs` is untouched. -/
def stopPolling (s : PollState) : PollState :=
  { s with polling := false }

end StatsModel

namespace RconModel

/-- One entry of the command queue, from `RconClient.send` (`client.js`
lines 219-230): the command text and an identifier standing for the
promise resolve/reject pair pushed with it. -/
structure QueueEntry where
  command : String
  id : Nat
  deriving DecidableEq, Repr

/-- A settlement of one queued promise: the observable effect of calling
its `resolve` or `reject` function. -/
inductive Settlement where
  | resolved (id : Nat) (response : String)
  | rejected (id : Nat) (message : String)
  deriving DecidableEq, Repr

/-- State of one `RconClient` instance (`client.js` lines 27-37), with the
wire made explicit: `wire` lists the requests currently written to the
socket whose responses are still outstanding.  Every `await` suspension
point of the source corresponds to one state here. -/
structure ClientState where
  connected : Bool
  reconnecting : Bool
  processing : Bool
  queue : List QueueEntry
  heartbeatActive : Bool
  wire : List String
  deriving DecidableEq, Repr

/-- Embedding of `RconClient._sendDirect` (`client.js` lines 237-243):
throws when not connected, otherwise writes the command to the socket.
`none` models the throw; nothing here consults the queue or the
`processing` flag. -/
def sendDirect (s : ClientState) (command : String) : Option ClientState :=
  if s.connected then some { s with wire := s.wire ++ [command] } else none

/-- Embedding of the heartbeat timer callback of `RconClient._startHeartbeat`
(`client.js` lines 178-188): if not connected it returns immediately;
otherwise it calls `_sendDirect` with the command `list`, bypassing the
queue.  A `_sendDirect` throw is caught and only emits an event, leaving
the state as `sendDirect` left it. -/
def heartbeatTick (s : ClientState) : ClientState :=
  if ¬ s.connected then s
  else (sendDirect s "list").getD s

/-- Embedding of `RconClient.send` (`client.js` lines 219-230): push the
entry on the queue (the subsequent `_processQueue` call is a separate
step). -/
def enqueue (s : ClientState) (e : QueueEntry) : ClientState :=
  { s with queue := s.queue ++ [e] }

/-- Embedding of `RconClient._processQueue` from its entry to the first
`await this._sendDirect(command)` suspension (`client.js` lines 248-268):
returns unchanged when already processing or the queue is empty; when
disconnected and not reconnecting, rejects every queued entry with the
`RCON not connected` error; otherwise sets `processing`, shifts the head
entry and writes its command to the socket.  The second component lists
the settlements performed. -/
def processQueueStep (s : ClientState) : ClientState × List Settlement :=
  if s.processing ∨ s.queue = [] then (s, [])
  else if ¬ s.connected then
    if ¬ s.reconnecting then
      ({ s with queue := [] },
       s.queue.map (fun e => .rejected e.id "RCON not connected"))
    else (s, [])
  else
    match s.queue with
    | [] => (s, [])
    | e :: rest =>
        ({ s with processing := true, queue := rest, wire := s.wire ++ [e.command] }, [])

/-- Embedding of `RconClient.disconnect` (`client.js` lines 113-128):
stop the heartbeat, close the socket (dropping whatever was in flight),
clear `connected`, empty the queue and clear `processing`.  The second
component lists the settlements performed on the queued promises — the
source rejects none of them, it only reassigns `this.queue = []`. -/
def disconnect (s : ClientState) : ClientState × List Settlement :=
  ({ connected := false, reconnecting := s.reconnecting, processing := false,
     queue := [], heartbeatActive := false, wire := [] }, [])

/-- The idle connected state right after `connect()` succeeds
(`client.js` lines 86-108): connected, heartbeat timer armed, queue
empty, nothing on the wire. -/
def connectedIdle : ClientState :=
  { connected := true, reconnecting := false, processing := false,
    queue := [], heartbeatActive := true, wire := [] }

end RconModel

namespace CommandsModel

/-- Player-name validation as mandated by the specification and by the
repository roadmap document (section `RCON Commands`, `_validatePlayerName`):
3 to 16 characters, each alphanumeric or underscore. -/
def isValidPlayerName (name : String) : Bool :=
  3 ≤ name.length && name.length ≤ 16 &&
    name.data.all (fun c => c.isAlphanum || c = '_')

/-- Embedding of the command string built by `RconCommands.kick`
(`commands.js` lines 33-37). -/
def kickCmd (player reason : String) : String :=
  if reason ≠ "" then "kick " ++ player ++ " " ++ reason else "kick " ++ player

/-- Embedding of the command string built by `RconCommands.ban`
(`commands.js` lines 45-48). -/
def banCmd (player reason : String) : String :=
  if reason ≠ "" then "ban " ++ player ++ " " ++ reason else "ban " ++ player

/-- Embedding of the command string built by `RconCommands.pardon`
(`commands.js` line 57). -/
def pardonCmd (player : String) : String := "pardon " ++ player

/-- Embedding of the command string built by `RconCommands.whitelistAdd`
(`commands.js` line 87). -/
def whitelistAddCmd (player : String) : String := "whitelist add " ++ player

/-- Embedding of the command string built by `RconCommands.whitelistRemove`
(`commands.js` line 97). -/
def whitelistRemoveCmd (player : String) : String := "whitelist remove " ++ player

/-- Embedding of the command string built by `RconCommands.opAdd`
(`commands.js` line 146). -/
def opAddCmd (player : String) : String := "op " ++ player

/-- Embedding of the command string built by `RconCommands.opRemove`
(`commands.js` line 156). -/
def opRemoveCmd (player : String) : String := "deop " ++ player

/-- What `RconCommands.kick` hands to `rcon.send`: the method body is
`const cmd = ...; const response = await this.rcon.send(cmd)` with no
validation branch, so for every argument a command is sent (`some`);
`none` would model a rejection before sending, which does not occur.
The surrounding IPC handler (`ipc-handlers.js` lines 666-672) also
forwards `player` unchecked. -/
def kickSend (player reason : String) : Option String :=
  some (kickCmd player reason)

/-- What `RconCommands.whitelistAdd` hands to `rcon.send`; again no
validation branch exists in the source. -/
def whitelistAddSend (player : String) : Option String :=
  some (whitelistAddCmd player)

/-- What `RconCommands.opAdd` hands to `rcon.send`; again no validation
branch exists in the source. -/
def opAddSend (player : String) : Option String :=
  some (opAddCmd player)

end CommandsModel

namespace BackupModel

/-- One backup record as produced by `BackupHelper.listBackups`
(`result.js` segment three, lines 530-567): filename, size in bytes and
creation time in epoch milliseconds. -/
structure BackupRecord where
  name : String
  size : Nat
  date : Nat
  deriving DecidableEq, Repr

/-- Ordering of backup records by creation time, the comparator
`(a, b) => a.date.getTime() - b.date.getTime()` of `applyRetention`
(`result.js` line 288). -/
def dateLe (a b : BackupRecord) : Prop := a.date ≤ b.date

instance : DecidableRel dateLe := fun a b => Nat.decLe a.date b.date

instance : IsTotal BackupRecord dateLe := ⟨fun a b => Nat.le_total a.date b.date⟩

instance : IsTrans BackupRecord dateLe := ⟨fun _ _ _ h h₂ => Nat.le_trans h h₂⟩

/-- Aggregate size `sortedBackups.reduce((sum, b) => sum + b.size, 0)`
(`result.js` line 300). -/
def totalSize (l : List BackupRecord) : Nat :=
  l.foldl (fun acc b => acc + b.size) 0

/-- First retention loop of `BackupManager.applyRetention` (`result.js`
lines 291-297): while the list is longer than `maxBackups`, shift off the
oldest entry, delete it and record its name. -/
def deleteByCount : List BackupRecord → Nat → List String × List BackupRecord
  | [], _ => ([], [])
  | b :: rest, maxBackups =>
    if maxBackups < rest.length + 1 then
      let res := deleteByCount rest maxBackups
      (b.name :: res.1, res.2)
    else ([], b :: rest)

/-- Second retention loop of `BackupManager.applyRetention` (`result.js`
lines 300-310): while the aggregate size exceeds `maxSizeBytes` and more
than one backup remains, shift off the oldest entry, delete it and record
its name. -/
def deleteBySize : List BackupRecord → Nat → List String × List BackupRecord
  | [], _ => ([], [])
  | b :: rest, maxSizeBytes =>
    if maxSizeBytes < totalSize (b :: rest) ∧ 0 < rest.length then
      let res := deleteBySize rest maxSizeBytes
      (b.name :: res.1, res.2)
    else ([], b :: rest)

/-- Embedding of `BackupManager.applyRetention` (`result.js` lines
283-313): sort ascending by date, run the count loop with `maxBackups`,
then the size loop with `maxSizeMB * 1024 * 1024` bytes.  The first
component is the returned `deleted` name list (count-loop deletions
before size-loop deletions, oldest first); the second component is the
set of backups surviving in storage. -/
def applyRetention (backups : List BackupRecord) (maxBackups maxSizeMB : Nat) :
    List String × List BackupRecord :=
  let sorted := List.insertionSort dateLe backups
  let resCount := deleteByCount sorted maxBackups
  let resSize := deleteBySize resCount.2 (maxSizeMB * 1024 * 1024)
  (resCount.1 ++ resSize.1, resSize.2)

/-- Normalisation of the `maxBackups` constructor option (`result.js`
line 146): `options.maxBackups || 10` maps an absent or zero value to 10. -/
def normMaxBackups (opt : Option Nat) : Nat :=
  match opt with
  | none => 10
  | some 0 => 10
  | some n => n

/-- A twelve-element backup listing with distinct ascending dates, for
the worked retention example. -/
def twelveBackups : List BackupRecord :=
  (List.range 12).map (fun i => { name := "b" ++ toString (i + 1), size := 100, date := i + 1 })

/-- Result of running one ephemeral helper container: the exit code
reported by `container.wait()` and the attached stdout/stderr text.
`BackupHelper._runHelper` (`result.js` lines 405-446) returns only the
output; the exit code is never read. -/
structure WorkerRun where
  exitCode : Nat
  output : String
  deriving DecidableEq, Repr

/-- Embedding of `BackupHelper._runHelper`: the captured output is
returned and the exit code discarded. -/
def runHelper (w : WorkerRun) : String := w.output

/-- Leading digit run of the first digit occurrence in the text, as
matched by `output.match(/(\d+)/)` in `BackupHelper.createBackup`
(`result.js` line 475). -/
def firstDigitRun : List Char → Option (List Char)
  | [] => none
  | c :: cs => if c.isDigit then some (c :: cs.takeWhile Char.isDigit) else firstDigitRun cs

/-- Numeric value of a digit string, the `parseInt` of the matched run. -/
def digitsToNat (ds : List Char) : Nat :=
  ds.foldl (fun acc c => acc * 10 + (c.toNat - 48)) 0

/-- Embedding of the size parse in `BackupHelper.createBackup`
(`result.js` lines 474-476): first digit run of the helper output, or 0
when the output holds no digit. -/
def parseSize (output : String) : Nat :=
  match firstDigitRun output.data with
  | some ds => digitsToNat ds
  | none => 0

/-- Result object returned by `BackupHelper.createBackup` (`result.js`
lines 480-485). -/
structure CreateBackupResult where
  success : Bool
  filename : String
  size : Nat
  deriving DecidableEq, Repr

/-- Embedding of the tail of `BackupHelper.createBackup` (`result.js`
lines 469-485): after the helper run, the returned object is built with
`success: true` unconditionally — no branch inspects the exit code or
checks that the archive file exists. -/
def createBackupResult (filename : String) (w : WorkerRun) : CreateBackupResult :=
  { success := true, filename := filename, size := parseSize (runHelper w) }

/-- Mutual-exclusion flag of `BackupManager` (`result.js` line 148):
`isRunning` starts false. -/
structure ManagerState where
  isRunning : Bool
  deriving DecidableEq, Repr

/-- Abstract outcome of the body of a backup or restore operation. -/
inductive OpOutcome where
  | succeeded
  | failed
  deriving DecidableEq, Repr

/-- Observable result of calling `createBackup` or `restoreBackup`. -/
inductive CallResult where
  | rejectedInProgress
  | completed (o : OpOutcome)
  deriving DecidableEq, Repr

/-- The guard shared by `BackupManager.createBackup` (`result.js` lines
162-166) and `BackupManager.restoreBackup` (lines 223-227): throw the
`A backup operation is already running` error when `isRunning` is set,
otherwise set the flag.  `none` models the throw. -/
def beginOp (s : ManagerState) : Option ManagerState :=
  if s.isRunning then none else some { isRunning := true }

/-- The `finally` clause shared by both operations (`result.js` lines
208-210 and 251-253): clear the flag, whether the body returned or threw. -/
def finishOp (_ : ManagerState) : ManagerState :=
  { isRunning := false }

/-- A whole `createBackup`/`restoreBackup` call: guard, body with the
given outcome, `finally`. -/
def backupCall (s : ManagerState) (body : OpOutcome) : CallResult × ManagerState :=
  match beginOp s with
  | none => (.rejectedInProgress, s)
  | some s₁ => (.completed body, finishOp s₁)

end BackupModel

namespace ReadyModel

/-- The outcome of the four per-tick probes of
`ReadinessChecker.waitForReady` at a given elapsed time:
`_checkContainerRunning`, `_checkDoneLog`, and `_checkPort` on the game
port and on the RCON port. -/
structure Probes where
  containerRunning : Bool
  doneLogged : Bool
  gamePortOpen : Bool
  rconPortOpen : Bool
  deriving DecidableEq, Repr

/-- Outcome of `waitForReady`: the success object `{ready: true,
rconReady, startupTimeMs}`, or the `Server not ready after ...ms timeout`
throw, carrying the elapsed time at which the loop condition failed. -/
inductive Outcome where
  | ready (rconReady : Bool) (startupTimeMs : Nat)
  | timedOut (elapsedMs : Nat)
  deriving DecidableEq, Repr

/-- Embedding of the polling loop of `ReadinessChecker.waitForReady`
(`waitForReady` lines 31-96): `env t` gives the probe results an
iteration starting at elapsed time `t` would observe; each failing
iteration sleeps `pollIntervalMs` and retries; when the three gating
probes all pass in one iteration the loop probes the RCON port and
returns success; when the loop condition `elapsed < timeoutMs` fails the
timeout error is thrown. -/
def waitLoop (env : Nat → Probes) (timeoutMs pollIntervalMs : Nat)
    (hpoll : 0 < pollIntervalMs) (t : Nat) : Outcome :=
  if _h : t < timeoutMs then
    if (env t).containerRunning && (env t).doneLogged && (env t).gamePortOpen then
      .ready (env t).rconPortOpen t
    else
      waitLoop env timeoutMs pollIntervalMs hpoll (t + pollIntervalMs)
  else .timedOut t
termination_by timeoutMs - t
decreasing_by omega

/-- Embedding of `ReadinessChecker.waitForReady` itself: the loop starts
at elapsed time 0. -/
def waitForReady (env : Nat → Probes) (timeoutMs pollIntervalMs : Nat)
    (hpoll : 0 < pollIntervalMs) : Outcome :=
  waitLoop env timeoutMs pollIntervalMs hpoll 0

/-- Replacing the RCON-port probe results of an environment, leaving the
three gating probes untouched; used to state that the RCON probe never
blocks the result. -/
def withRcon (env : Nat → Probes) (f : Nat → Bool) : Nat → Probes :=
  fun t => { env t with rconPortOpen := f t }

/-- The constructor and elapsed time of an outcome, forgetting the
reported `rconReady` flag. -/
def outcomeShape : Outcome → Bool × Nat
  | .ready _ t => (true, t)
  | .timedOut t => (false, t)

/-- An environment in which the startup marker never appears in the logs
while the container runs and the ports answer. -/
def envNeverDone : Nat → Probes :=
  fun _ => { containerRunning := true, doneLogged := false,
             gamePortOpen := true, rconPortOpen := true }

end ReadyModel

namespace LogsModel

theorem addToBuffer_eq {α : Type} (cap : Nat) (buffer : List α) (e : α) :
    addToBuffer cap buffer e =
      if cap < buffer.length + 1 then (buffer ++ [e]).tail else buffer ++ [e] := by
  simp [addToBuffer]

/-- Characterisation of the buffer after feeding any entry sequence: the
result is the suffix of `buffer ++ entries` that fits in the capacity. -/
theorem feed_eq_drop {α : Type} (cap : Nat) :
    ∀ (entries buffer : List α), buffer.length ≤ cap →
      feed cap buffer entries =
        (buffer ++ entries).drop (buffer.length + entries.length - cap) := by
  intro entries
  induction entries with
  | nil =>
    intro buffer h
    simp [feed, Nat.sub_eq_zero_of_le h]
  | cons e es ih =>
    intro buffer h
    have hstep : feed cap buffer (e :: es) = feed cap (addToBuffer cap buffer e) es := by
      simp [feed]
    rw [hstep, addToBuffer_eq]
    by_cases hc : cap < buffer.length + 1
    · have hbl : buffer.length = cap := Nat.le_antisymm h (Nat.lt_succ_iff.mp hc)
      rw [if_pos hc]
      have htl : (buffer ++ [e]).tail.length = buffer.length := by
        simp
      have hle : (buffer ++ [e]).tail.length ≤ cap := by rw [htl, hbl]
      rw [ih _ hle, htl, hbl]
      have h1 : (buffer ++ [e]).tail ++ es = ((buffer ++ [e]) ++ es).tail := by
        cases buffer <;> simp
      rw [h1]
      have h2 : ((buffer ++ [e]) ++ es).tail = ((buffer ++ [e]) ++ es).drop 1 := by
        simp
      rw [h2, List.drop_drop]
      have h3 : (buffer ++ [e]) ++ es = buffer ++ e :: es := by simp
      rw [h3]
      congr 1
      simp only [List.length_cons]
      omega
    · have hle : (buffer ++ [e]).length ≤ cap := by
        simp only [List.length_append, List.length_cons, List.length_nil]
        omega
      rw [if_neg hc, ih _ hle]
      have h3 : (buffer ++ [e]) ++ es = buffer ++ e :: es := by simp
      rw [h3]
      congr 1
      simp only [List.length_append, List.length_cons, List.length_nil]
      omega

end LogsModel

namespace StatsModel

theorem round1_intCast (n : Int) : round1 (n : Rat) = n := by
  rw [round1, jsRound]
  have h : ⌊(n : Rat) * 10 + 1/2⌋ = 10 * n := by
    rw [Int.floor_eq_iff]
    constructor
    · push_cast
      linarith
    · push_cast
      linarith
  rw [h]
  push_cast
  ring

theorem round1_zero : round1 0 = 0 := by
  have h := round1_intCast 0
  push_cast at h
  exact h

end StatsModel

/-- C9: the log retention buffer never holds more than its capacity
(default 500) entries: for every sequence of appended log entries, an
append beyond capacity evicts the oldest entry, and feeding 600 entries
into a 500-capacity buffer leaves exactly the most recent 500 in arrival
order. -/
theorem logBuffer_bounded_fifo :
    (∀ (cap : Nat) (buffer entries : List LogsModel.LogEntry),
        buffer.length ≤ cap → (LogsModel.feed cap buffer entries).length ≤ cap) ∧
    (∀ entries : List LogsModel.LogEntry,
        LogsModel.feed 500 [] entries = entries.drop (entries.length - 500)) ∧
    LogsModel.feed 500 [] ((List.range 600).map LogsModel.mkEntry) =
      ((List.range 600).map LogsModel.mkEntry).drop 100 := by
  refine ⟨?_, ?_, ?_⟩
  · intro cap buffer entries h
    rw [LogsModel.feed_eq_drop cap entries buffer h]
    simp only [List.length_drop, List.length_append]
    omega
  · intro entries
    have h := LogsModel.feed_eq_drop 500 entries ([] : List LogsModel.LogEntry) (by simp)
    simpa using h
  · have h := LogsModel.feed_eq_drop 500 ((List.range 600).map LogsModel.mkEntry)
      ([] : List LogsModel.LogEntry) (by simp)
    rw [h, List.nil_append]
    have hlen : ((List.range 600).map LogsModel.mkEntry).length = 600 := by
      rw [List.length_map, List.length_range]
    rw [hlen]
    norm_num

/-- Witness: the bound of the buffer theorem at a concrete capacity and
entry sequence. -/
theorem logBuffer_bounded_fifo_witness :
    ([] : List LogsModel.LogEntry).length ≤ 2 ∧
      (LogsModel.feed 2 []
        [LogsModel.mkEntry 0, LogsModel.mkEntry 1, LogsModel.mkEntry 2]).length ≤ 2 :=
  ⟨by decide,
    logBuffer_bounded_fifo.1 2 []
      [LogsModel.mkEntry 0, LogsModel.mkEntry 1, LogsModel.mkEntry 2] (by decide)⟩

/-- C10: calling startPolling while polling is already active is a no-op:
the state (and so the armed timer) is unchanged and the newly supplied
interval is ignored, the originally configured interval staying in effect
until stopPolling runs; after stopPolling a new startPolling takes the
new interval. -/
theorem startPolling_noop_when_active :
    (∀ (s : StatsModel.PollState) (intervalMs : Nat),
        s.polling = true → StatsModel.startPolling s intervalMs = s) ∧
    (∀ (s : StatsModel.PollState) (i₁ i₂ : Nat),
        s.polling = true →
          (StatsModel.startPolling s i₁).tickMs = s.tickMs ∧
            (StatsModel.startPolling (StatsModel.stopPolling s) i₂).tickMs = i₂) := by
  constructor
  · intro s intervalMs h
    simp [StatsModel.startPolling, h]
  · intro s i₁ i₂ h
    simp [StatsModel.startPolling, StatsModel.stopPolling, h]

/-- Witness: the no-op at a concrete active state. -/
theorem startPolling_noop_when_active_witness :
    (⟨true, 2000⟩ : StatsModel.PollState).polling = true ∧
      StatsModel.startPolling ⟨true, 2000⟩ 99 = ⟨true, 2000⟩ :=
  ⟨by decide, startPolling_noop_when_active.1 ⟨true, 2000⟩ 99 (by decide)⟩

/-- C4 counterexample: at the worked raw sample (cpuUsageDelta 200,
systemUsageDelta 1000, 4 online CPUs) the value of the claimed formula
`(cpuUsageDelta / systemUsageDelta) × onlineCpuCount × 100` is 80, but
the `percent` field the code reports is 20 — the code omits the core
multiplier from `percent`. -/
theorem calculateCpu_percent_counterexample :
    (StatsModel.calculateCpu StatsModel.exampleSample).percent = 20 ∧
      (StatsModel.cpuDelta StatsModel.exampleSample : Rat) /
          (StatsModel.systemDelta StatsModel.exampleSample : Rat) *
          (StatsModel.exampleSample.cpu_stats.online_cpus : Rat) * 100 = 80 ∧
      (20 : Rat) ≠ 80 := by
  have h1 : StatsModel.cpuDelta StatsModel.exampleSample = 200 := by
    norm_num [StatsModel.cpuDelta, StatsModel.exampleSample]
  have h2 : StatsModel.systemDelta StatsModel.exampleSample = 1000 := by
    norm_num [StatsModel.systemDelta, StatsModel.exampleSample]
  have h20 : StatsModel.round1 20 = 20 := by
    have h := StatsModel.round1_intCast 20
    push_cast at h
    exact h
  refine ⟨?_, ?_, by norm_num⟩
  · simp only [StatsModel.calculateCpu, h1, h2]
    norm_num
    exact h20
  · rw [h1, h2]
    norm_num [StatsModel.exampleSample]

/-- C4 amended: the deltas are taken against the docker-supplied
`precpu_stats` inside the same raw sample (not an internally retained
baseline); when both deltas are positive the reported `percent` equals
`(cpuUsageDelta / systemUsageDelta) × 100` rounded to one decimal —
without the core multiplier — while the `totalPercent` field equals
`(cpuUsageDelta / systemUsageDelta) × onlineCpuCount × 100` rounded to
one decimal; when either delta is not positive (as in a sample with no
baseline, whose deltas are zero) both reported percentages are 0.  At the
worked sample: percent 20.0, totalPercent 80.0. -/
theorem calculateCpu_amended :
    (∀ s : StatsModel.RawStats,
        0 < StatsModel.systemDelta s → 0 < StatsModel.cpuDelta s →
        s.cpu_stats.online_cpus ≠ 0 →
          (StatsModel.calculateCpu s).percent =
              StatsModel.round1
                ((StatsModel.cpuDelta s : Rat) / (StatsModel.systemDelta s : Rat) * 100) ∧
            (StatsModel.calculateCpu s).totalPercent =
              StatsModel.round1
                ((StatsModel.cpuDelta s : Rat) / (StatsModel.systemDelta s : Rat) *
                  (s.cpu_stats.online_cpus : Rat) * 100)) ∧
    (∀ s : StatsModel.RawStats,
        ¬ (0 < StatsModel.systemDelta s ∧ 0 < StatsModel.cpuDelta s) →
          (StatsModel.calculateCpu s).percent = 0 ∧
            (StatsModel.calculateCpu s).totalPercent = 0) ∧
    (StatsModel.calculateCpu StatsModel.exampleSample).percent = 20 ∧
    (StatsModel.calculateCpu StatsModel.exampleSample).totalPercent = 80 := by
  have hdeltas : StatsModel.cpuDelta StatsModel.exampleSample = 200 ∧
      StatsModel.systemDelta StatsModel.exampleSample = 1000 := by
    constructor
    · norm_num [StatsModel.cpuDelta, StatsModel.exampleSample]
    · norm_num [StatsModel.systemDelta, StatsModel.exampleSample]
  refine ⟨?_, ?_, ?_, ?_⟩
  · intro s hs hc hcores
    constructor
    · simp [StatsModel.calculateCpu, hs, hc]
    · simp only [StatsModel.calculateCpu, if_pos (And.intro hs hc), if_pos hcores]
      congr 1
      ring
  · intro s hnot
    simp [StatsModel.calculateCpu, hnot, StatsModel.round1_zero]
  · simp only [StatsModel.calculateCpu, hdeltas.1, hdeltas.2]
    norm_num
    have h := StatsModel.round1_intCast 20
    push_cast at h
    exact h
  · have hon : StatsModel.exampleSample.cpu_stats.online_cpus = 4 := rfl
    simp only [StatsModel.calculateCpu, hdeltas.1, hdeltas.2, hon]
    norm_num
    have h := StatsModel.round1_intCast 80
    push_cast at h
    exact h

/-- Witness: the amended CPU theorem at the worked sample. -/
theorem calculateCpu_amended_witness :
    (0 < StatsModel.systemDelta StatsModel.exampleSample ∧
        0 < StatsModel.cpuDelta StatsModel.exampleSample ∧
        StatsModel.exampleSample.cpu_stats.online_cpus ≠ 0) ∧
      (StatsModel.calculateCpu StatsModel.exampleSample).percent =
          StatsModel.round1
            ((StatsModel.cpuDelta StatsModel.exampleSample : Rat) /
              (StatsModel.systemDelta StatsModel.exampleSample : Rat) * 100) :=
  ⟨⟨by decide, by decide, by decide⟩,
    (calculateCpu_amended.1 StatsModel.exampleSample (by decide) (by decide) (by decide)).1⟩

/-- C1 divergence: the heartbeat is not serialized through the command
queue.  From the idle connected state, enqueue a command and let
`_processQueue` reach its `await this._sendDirect(command)` suspension:
the command is on the wire.  If the heartbeat timer fires at that moment,
its callback calls `_sendDirect('list')` directly — it consults neither
`processing` nor the queue — so a second request joins the wire: two
requests are then in flight on one session, contradicting the claimed
single-in-flight discipline. -/
theorem heartbeat_races_queue :
    (RconModel.processQueueStep
        (RconModel.enqueue RconModel.connectedIdle ⟨"say hello", 0⟩)).1.wire =
      ["say hello"] ∧
    (RconModel.heartbeatTick
        (RconModel.processQueueStep
          (RconModel.enqueue RconModel.connectedIdle ⟨"say hello", 0⟩)).1).wire =
      ["say hello", "list"] ∧
    (RconModel.heartbeatTick
        (RconModel.processQueueStep
          (RconModel.enqueue RconModel.connectedIdle ⟨"say hello", 0⟩)).1).wire.length = 2 := by
  refine ⟨?_, ?_, ?_⟩ <;> decide

/-- C2 divergence: `disconnect()` never rejects the pending queue
entries.  For every client state it performs no settlement at all (the
source only reassigns `this.queue = []`), and on a state with one pending
entry that entry is gone from the queue afterwards while its promise was
neither resolved nor rejected — it is left unresolved forever, where the
claim demands an individual NotConnected rejection. -/
theorem disconnect_drops_pending :
    (∀ s : RconModel.ClientState, (RconModel.disconnect s).2 = []) ∧
    (RconModel.connectedIdle.queue = [] ∧
      (RconModel.enqueue RconModel.connectedIdle ⟨"say hello", 7⟩).queue.length = 1 ∧
      (RconModel.disconnect
          (RconModel.enqueue RconModel.connectedIdle ⟨"say hello", 7⟩)).1.queue = [] ∧
      (RconModel.disconnect
          (RconModel.enqueue RconModel.connectedIdle ⟨"say hello", 7⟩)).2.length = 0) := by
  exact ⟨fun s => rfl, by decide, by decide, by decide, by decide⟩

/-- C6 divergence: `createBackup` reports success regardless of the
worker exit code and without checking that the archive artifact exists:
the result object is built with `success: true` unconditionally, the exit
code never influences the result, and for a worker that exits non-zero
with no `stat` output (so no artifact size either) the call still returns
`success: true` with size 0 instead of failing with an ArchiveFailed
error. -/
theorem createBackup_success_despite_failure :
    (∀ (f : String) (e₁ e₂ : Nat) (out : String),
        BackupModel.createBackupResult f ⟨e₁, out⟩ =
          BackupModel.createBackupResult f ⟨e₂, out⟩) ∧
    BackupModel.createBackupResult "world_x.tar.gz" ⟨1, ""⟩ =
      { success := true, filename := "world_x.tar.gz", size := 0 } := by
  exact ⟨fun f e₁ e₂ out => rfl, by decide⟩

/-- C7 divergence: no player-management operation validates the player
name before embedding it into the command string.  `kick`, `whitelist
add` and `op` pass every argument unchanged to `rcon.send` (`some` always
— there is no validation branch that could reject), so names far outside
the mandated 3-16 alphanumeric/underscore shape are embedded and sent:
the two-character name `ab` and the injection-shaped name `a stop` both
produce sent commands. -/
theorem player_commands_skip_validation :
    (∀ player reason : String,
        CommandsModel.kickSend player reason =
          some (CommandsModel.kickCmd player reason)) ∧
    (∀ player : String,
        CommandsModel.whitelistAddSend player =
            some (CommandsModel.whitelistAddCmd player) ∧
          CommandsModel.opAddSend player = some (CommandsModel.opAddCmd player)) ∧
    (CommandsModel.isValidPlayerName "ab" = false ∧
      CommandsModel.kickSend "ab" "" = some "kick ab") ∧
    (CommandsModel.isValidPlayerName "a stop" = false ∧
      CommandsModel.kickSend "a stop" "" = some "kick a stop" ∧
      CommandsModel.whitelistAddSend "a stop" = some "whitelist add a stop" ∧
      CommandsModel.opAddSend "a stop" = some "op a stop") := by
  refine ⟨fun p r => rfl, fun p => ⟨rfl, rfl⟩, ⟨?_, ?_⟩, ⟨?_, ?_, ?_, ?_⟩⟩ <;> decide

/-- C8: at most one backup or restore operation is in flight: both
`createBackup` and `restoreBackup` run through the same guard, so a call
made while the `isRunning` flag is set throws the backup-in-progress
error and changes nothing; the guard sets the flag for the duration of
the body; and the `finally` clause clears the flag when the call
completes, whether the body succeeded or failed. -/
theorem backup_mutual_exclusion :
    (∀ (s : BackupModel.ManagerState) (b : BackupModel.OpOutcome),
        s.isRunning = true →
          BackupModel.backupCall s b = (.rejectedInProgress, s)) ∧
    (∀ s s₁ : BackupModel.ManagerState,
        BackupModel.beginOp s = some s₁ → s₁.isRunning = true) ∧
    (∀ b : BackupModel.OpOutcome,
        BackupModel.backupCall ⟨false⟩ b = (.completed b, ⟨false⟩)) := by
  refine ⟨?_, ?_, ?_⟩
  · intro s b h
    simp [BackupModel.backupCall, BackupModel.beginOp, h]
  · intro s s₁ h
    simp only [BackupModel.beginOp] at h
    by_cases hr : s.isRunning
    · simp [hr] at h
    · simp [hr] at h
      rw [← h]
  · intro b
    rfl

/-- Witness: the mutual-exclusion theorem at a concrete busy state. -/
theorem backup_mutual_exclusion_witness :
    (⟨true⟩ : BackupModel.ManagerState).isRunning = true ∧
      BackupModel.backupCall ⟨true⟩ .succeeded = (.rejectedInProgress, ⟨true⟩) :=
  ⟨by decide, backup_mutual_exclusion.1 ⟨true⟩ .succeeded (by decide)⟩

namespace ReadyModel

theorem waitLoop_inv (env : Nat → Probes) (timeoutMs pollIntervalMs : Nat)
    (hpoll : 0 < pollIntervalMs) :
    ∀ (n t : Nat), timeoutMs - t ≤ n →
      (∀ r tr, waitLoop env timeoutMs pollIntervalMs hpoll t = .ready r tr →
          tr < timeoutMs ∧ (env tr).containerRunning = true ∧
            (env tr).doneLogged = true ∧ (env tr).gamePortOpen = true ∧
            r = (env tr).rconPortOpen) ∧
      (∀ te, waitLoop env timeoutMs pollIntervalMs hpoll t = .timedOut te →
          timeoutMs ≤ te) := by
  intro n
  induction n with
  | zero =>
    intro t ht
    rw [waitLoop, dif_neg (by omega)]
    constructor
    · intro r tr h
      exact Outcome.noConfusion h
    · intro te h
      injection h with h1
      omega
  | succ n ih =>
    intro t ht
    rw [waitLoop]
    by_cases hlt : t < timeoutMs
    · rw [dif_pos hlt]
      by_cases hg :
          ((env t).containerRunning && (env t).doneLogged && (env t).gamePortOpen) = true
      · rw [if_pos hg]
        simp only [Bool.and_eq_true] at hg
        constructor
        · intro r tr h
          injection h with h1 h2
          subst h2
          subst h1
          exact ⟨hlt, hg.1.1, hg.1.2, hg.2, rfl⟩
        · intro te h
          exact Outcome.noConfusion h
      · rw [if_neg hg]
        exact ih (t + pollIntervalMs) (by omega)
    · rw [dif_neg hlt]
      constructor
      · intro r tr h
        exact Outcome.noConfusion h
      · intro te h
        injection h with h1
        omega

theorem waitLoop_never_done (env : Nat → Probes) (timeoutMs pollIntervalMs : Nat)
    (hpoll : 0 < pollIntervalMs) (hnd : ∀ u, (env u).doneLogged = false) :
    ∀ (n t : Nat), timeoutMs - t ≤ n →
      ∃ te, waitLoop env timeoutMs pollIntervalMs hpoll t = .timedOut te ∧
        timeoutMs ≤ te := by
  intro n
  induction n with
  | zero =>
    intro t ht
    refine ⟨t, ?_, by omega⟩
    rw [waitLoop, dif_neg (by omega)]
  | succ n ih =>
    intro t ht
    by_cases hlt : t < timeoutMs
    · have hg : ((env t).containerRunning && (env t).doneLogged &&
          (env t).gamePortOpen) = false := by
        rw [hnd t]
        simp
      rw [waitLoop, dif_pos hlt, hg]
      simp only [Bool.false_eq_true, if_false]
      exact ih (t + pollIntervalMs) (by omega)
    · refine ⟨t, ?_, by omega⟩
      rw [waitLoop, dif_neg hlt]

theorem waitLoop_rcon_blind (env : Nat → Probes) (f : Nat → Bool)
    (timeoutMs pollIntervalMs : Nat) (hpoll : 0 < pollIntervalMs) :
    ∀ (n t : Nat), timeoutMs - t ≤ n →
      outcomeShape (waitLoop (withRcon env f) timeoutMs pollIntervalMs hpoll t) =
        outcomeShape (waitLoop env timeoutMs pollIntervalMs hpoll t) := by
  intro n
  induction n with
  | zero =>
    intro t ht
    rw [waitLoop, dif_neg (by omega), waitLoop, dif_neg (by omega)]
  | succ n ih =>
    intro t ht
    by_cases hlt : t < timeoutMs
    · have hsame :
          ((withRcon env f t).containerRunning && (withRcon env f t).doneLogged &&
              (withRcon env f t).gamePortOpen) =
            ((env t).containerRunning && (env t).doneLogged && (env t).gamePortOpen) := by
        simp [withRcon]
      have hfL : waitLoop (withRcon env f) timeoutMs pollIntervalMs hpoll t =
          if ((env t).containerRunning && (env t).doneLogged && (env t).gamePortOpen) = true
          then Outcome.ready (withRcon env f t).rconPortOpen t
          else waitLoop (withRcon env f) timeoutMs pollIntervalMs hpoll
            (t + pollIntervalMs) := by
        rw [waitLoop, dif_pos hlt, hsame]
      have hfR : waitLoop env timeoutMs pollIntervalMs hpoll t =
          if ((env t).containerRunning && (env t).doneLogged && (env t).gamePortOpen) = true
          then Outcome.ready (env t).rconPortOpen t
          else waitLoop env timeoutMs pollIntervalMs hpoll (t + pollIntervalMs) := by
        rw [waitLoop, dif_pos hlt]
      rw [hfL, hfR]
      by_cases hg :
          ((env t).containerRunning && (env t).doneLogged && (env t).gamePortOpen) = true
      · rw [if_pos hg, if_pos hg]
        rfl
      · rw [if_neg hg, if_neg hg]
        exact ih (t + pollIntervalMs) (by omega)
    · rw [waitLoop, dif_neg hlt, waitLoop, dif_neg hlt]

end ReadyModel

/-- C5: `waitForReady` returns the success object only when the
container-running, startup-log-observed and game-port-open probes all
held on the same poll tick (and the reported `rconReady` is just the
RCON probe of that tick); changing only the RCON-port probe results never
changes whether or when the call succeeds or times out; when the startup
marker never appears the call fails with the readiness-timeout error at
an elapsed time at or after `timeoutMs`, never before. -/
theorem waitForReady_spec :
    (∀ (env : Nat → ReadyModel.Probes) (timeoutMs pollIntervalMs : Nat)
        (hp : 0 < pollIntervalMs) (r : Bool) (tr : Nat),
        ReadyModel.waitForReady env timeoutMs pollIntervalMs hp = .ready r tr →
          tr < timeoutMs ∧ (env tr).containerRunning = true ∧
            (env tr).doneLogged = true ∧ (env tr).gamePortOpen = true ∧
            r = (env tr).rconPortOpen) ∧
    (∀ (env : Nat → ReadyModel.Probes) (f : Nat → Bool)
        (timeoutMs pollIntervalMs : Nat) (hp : 0 < pollIntervalMs),
        ReadyModel.outcomeShape
            (ReadyModel.waitForReady (ReadyModel.withRcon env f) timeoutMs pollIntervalMs hp) =
          ReadyModel.outcomeShape (ReadyModel.waitForReady env timeoutMs pollIntervalMs hp)) ∧
    (∀ (env : Nat → ReadyModel.Probes) (timeoutMs pollIntervalMs : Nat)
        (hp : 0 < pollIntervalMs), (∀ u, (env u).doneLogged = false) →
        ∃ te, ReadyModel.waitForReady env timeoutMs pollIntervalMs hp = .timedOut te ∧
          timeoutMs ≤ te) ∧
    (∀ (env : Nat → ReadyModel.Probes) (timeoutMs pollIntervalMs : Nat)
        (hp : 0 < pollIntervalMs) (te : Nat),
        ReadyModel.waitForReady env timeoutMs pollIntervalMs hp = .timedOut te →
          timeoutMs ≤ te) := by
  refine ⟨?_, ?_, ?_, ?_⟩
  · intro env timeoutMs pollIntervalMs hp r tr h
    exact (ReadyModel.waitLoop_inv env timeoutMs pollIntervalMs hp timeoutMs 0
      (by omega)).1 r tr h
  · intro env f timeoutMs pollIntervalMs hp
    exact ReadyModel.waitLoop_rcon_blind env f timeoutMs pollIntervalMs hp timeoutMs 0
      (by omega)
  · intro env timeoutMs pollIntervalMs hp hnd
    exact ReadyModel.waitLoop_never_done env timeoutMs pollIntervalMs hp hnd timeoutMs 0
      (by omega)
  · intro env timeoutMs pollIntervalMs hp te h
    exact (ReadyModel.waitLoop_inv env timeoutMs pollIntervalMs hp timeoutMs 0
      (by omega)).2 te h

/-- Witness: the readiness theorem on an environment whose startup marker
never appears, with the default 180000 ms ceiling and 2000 ms poll
interval. -/
theorem waitForReady_spec_witness :
    (0 : Nat) < 2000 ∧ (∀ u, (ReadyModel.envNeverDone u).doneLogged = false) ∧
      ∃ te, ReadyModel.waitForReady ReadyModel.envNeverDone 180000 2000 (by norm_num) =
          .timedOut te ∧ 180000 ≤ te :=
  ⟨by norm_num, fun u => rfl,
    waitForReady_spec.2.2.1 ReadyModel.envNeverDone 180000 2000 (by norm_num)
      (fun u => rfl)⟩

namespace BackupModel

theorem deleteByCount_eq :
    ∀ (l : List BackupRecord) (maxBackups : Nat),
      deleteByCount l maxBackups =
        ((l.take (l.length - maxBackups)).map BackupRecord.name,
          l.drop (l.length - maxBackups)) := by
  intro l
  induction l with
  | nil =>
    intro maxBackups
    simp [deleteByCount]
  | cons b rest ih =>
    intro maxBackups
    simp only [deleteByCount]
    by_cases h : maxBackups < rest.length + 1
    · rw [if_pos h, ih maxBackups]
      have hsub : (b :: rest).length - maxBackups = (rest.length - maxBackups) + 1 := by
        simp only [List.length_cons]
        omega
      rw [hsub, List.take_succ_cons, List.drop_succ_cons, List.map_cons]
    · rw [if_neg h]
      have hz : (b :: rest).length - maxBackups = 0 := by
        simp only [List.length_cons]
        omega
      rw [hz]
      simp

theorem deleteBySize_suffix :
    ∀ (l : List BackupRecord) (maxSizeBytes : Nat),
      ∃ k, deleteBySize l maxSizeBytes =
        ((l.take k).map BackupRecord.name, l.drop k) := by
  intro l
  induction l with
  | nil =>
    intro maxSizeBytes
    exact ⟨0, by simp [deleteBySize]⟩
  | cons b rest ih =>
    intro maxSizeBytes
    simp only [deleteBySize]
    by_cases h : maxSizeBytes < totalSize (b :: rest) ∧ 0 < rest.length
    · rw [if_pos h]
      obtain ⟨k, hk⟩ := ih maxSizeBytes
      refine ⟨k + 1, ?_⟩
      rw [hk, List.take_succ_cons, List.drop_succ_cons, List.map_cons]
    · rw [if_neg h]
      exact ⟨0, by simp⟩

theorem deleteBySize_keeps_one :
    ∀ (l : List BackupRecord) (maxSizeBytes : Nat),
      l ≠ [] → (deleteBySize l maxSizeBytes).2 ≠ [] := by
  intro l
  induction l with
  | nil =>
    intro maxSizeBytes h
    exact absurd rfl h
  | cons b rest ih =>
    intro maxSizeBytes _
    simp only [deleteBySize]
    by_cases h : maxSizeBytes < totalSize (b :: rest) ∧ 0 < rest.length
    · rw [if_pos h]
      have hrest : rest ≠ [] := by
        intro hr
        rw [hr] at h
        simp at h
      exact ih maxSizeBytes hrest
    · rw [if_neg h]
      simp

theorem deleteBySize_exit :
    ∀ (l : List BackupRecord) (maxSizeBytes : Nat),
      ¬ (maxSizeBytes < totalSize (deleteBySize l maxSizeBytes).2 ∧
          1 < (deleteBySize l maxSizeBytes).2.length) := by
  intro l
  induction l with
  | nil =>
    intro maxSizeBytes
    simp [deleteBySize]
  | cons b rest ih =>
    intro maxSizeBytes
    simp only [deleteBySize]
    by_cases h : maxSizeBytes < totalSize (b :: rest) ∧ 0 < rest.length
    · rw [if_pos h]
      exact ih maxSizeBytes
    · rw [if_neg h]
      intro hcon
      apply h
      constructor
      · exact hcon.1
      · have := hcon.2
        simp only [List.length_cons] at this
        omega

end BackupModel

/-- C3: applyRetention sorts the backup records ascending by creation
time; the deleted set is an oldest-first prefix of that order, the count
loop running first and the size loop second, and the returned list holds
exactly the names deleted; afterwards at most maxCount backups remain,
at least one backup survives whenever any existed (for any positive
maxCount, and the constructor forces maxCount positive), and the size
loop stops once the aggregate is within the bound or a single backup is
left; for 12 backups with maxCount 10 exactly the 2 oldest are deleted. -/
theorem applyRetention_correct :
    (∀ (backups : List BackupModel.BackupRecord) (maxBackups maxSizeMB : Nat),
        1 ≤ maxBackups →
          (List.insertionSort BackupModel.dateLe backups).Sorted BackupModel.dateLe ∧
          List.Perm (List.insertionSort BackupModel.dateLe backups) backups ∧
          (∃ k, (BackupModel.applyRetention backups maxBackups maxSizeMB).1 =
              ((List.insertionSort BackupModel.dateLe backups).take k).map
                BackupModel.BackupRecord.name ∧
            (BackupModel.applyRetention backups maxBackups maxSizeMB).2 =
              (List.insertionSort BackupModel.dateLe backups).drop k) ∧
          (BackupModel.applyRetention backups maxBackups maxSizeMB).2.length ≤ maxBackups ∧
          (backups ≠ [] →
            1 ≤ (BackupModel.applyRetention backups maxBackups maxSizeMB).2.length) ∧
          ¬ (maxSizeMB * 1024 * 1024 <
                BackupModel.totalSize (BackupModel.applyRetention backups maxBackups maxSizeMB).2 ∧
              1 < (BackupModel.applyRetention backups maxBackups maxSizeMB).2.length)) ∧
    (∀ opt, 1 ≤ BackupModel.normMaxBackups opt) ∧
    (BackupModel.applyRetention BackupModel.twelveBackups 10 5000).1 = ["b1", "b2"] ∧
    (BackupModel.applyRetention BackupModel.twelveBackups 10 5000).2.length = 10 := by
  refine ⟨?_, ?_, ?_, ?_⟩
  · intro backups maxBackups maxSizeMB hmax
    set s := List.insertionSort BackupModel.dateLe backups with hs
    have hcount := BackupModel.deleteByCount_eq s maxBackups
    obtain ⟨k2, hsize⟩ :=
      BackupModel.deleteBySize_suffix (s.drop (s.length - maxBackups))
        (maxSizeMB * 1024 * 1024)
    have happ : BackupModel.applyRetention backups maxBackups maxSizeMB =
        ((s.take (s.length - maxBackups)).map BackupModel.BackupRecord.name ++
            (((s.drop (s.length - maxBackups)).take k2).map BackupModel.BackupRecord.name),
          (s.drop (s.length - maxBackups)).drop k2) := by
      rw [BackupModel.applyRetention, ← hs, hcount, hsize]
    refine ⟨List.sorted_insertionSort BackupModel.dateLe backups,
      List.perm_insertionSort BackupModel.dateLe backups, ?_, ?_, ?_, ?_⟩
    · refine ⟨(s.length - maxBackups) + k2, ?_, ?_⟩
      · rw [happ, List.take_add, List.map_append]
      · rw [happ]
        rw [List.drop_drop]
    · rw [happ]
      simp only [List.length_drop]
      omega
    · intro hne
      rw [happ]
      apply List.length_pos.mpr
      have hslen : s.length = backups.length :=
        (List.perm_insertionSort BackupModel.dateLe backups).length_eq
      have hlen : backups.length ≠ 0 := by
        intro h0
        exact hne (List.length_eq_zero.mp h0)
      have hdropne : s.drop (s.length - maxBackups) ≠ [] := by
        intro hempty
        have := congrArg List.length hempty
        simp only [List.length_drop, List.length_nil] at this
        omega
      have hkeep := BackupModel.deleteBySize_keeps_one
        (s.drop (s.length - maxBackups)) (maxSizeMB * 1024 * 1024) hdropne
      rw [hsize] at hkeep
      exact hkeep
    · have hexit := BackupModel.deleteBySize_exit
        (s.drop (s.length - maxBackups)) (maxSizeMB * 1024 * 1024)
      rw [hsize] at hexit
      rw [happ]
      exact hexit
  · intro opt
    cases opt with
    | none => norm_num [BackupModel.normMaxBackups]
    | some n =>
      cases n with
      | zero => norm_num [BackupModel.normMaxBackups]
      | succ m => simp [BackupModel.normMaxBackups]
  · decide
  · decide

/-- Witness: the retention theorem at the twelve-backup listing with
maxCount 10. -/
theorem applyRetention_correct_witness :
    1 ≤ 10 ∧ BackupModel.twelveBackups ≠ [] ∧
      1 ≤ (BackupModel.applyRetention BackupModel.twelveBackups 10 5000).2.length :=
  ⟨by decide, by decide,
    (applyRetention_correct.1 BackupModel.twelveBackups 10 5000
      (by decide)).2.2.2.2.1 (by decide)⟩
